import Mathlib

/-!
Verification development for the policy-pulse repository: a shallow
embedding, in Lean 4, of the resilient outbound request layer
(`src/utils/apiCache.js`, `src/utils/errorHandling.js`), the document
summarizer (`src/services/documentSummarizerService.js`), the PDF
validation/extraction utilities (`enhancedPdfProcessor`), and the
processing pipeline hook (`src/hooks/usePDFProcessor.js`), together with
theorems settling the specification's claims about them.

Conventions: JavaScript `Date.now()` timestamps are modelled as `Int`
(the programs only add, subtract and compare them, always on integral
millisecond values); JavaScript exceptions are modelled with `Except`;
`Map` objects keyed by strings are modelled as association lists with
unique keys maintained by construction.
-/

/-! ## JavaScript error values

Errors thrown in the request layer carry a `name` (the error class,
e.g. `"AbortError"`, `"TypeError"`), an optional numeric `status`
(present on HTTP-shaped errors, absent on thrown exceptions such as
network failures or aborts), and a message. `error.status >= 500` in
JavaScript is `false` when `status` is `undefined`, which the
`statusAtLeast` helper reproduces. -/

structure JsError where
  name : String
  status : Option Int
  message : String
deriving DecidableEq, Repr

/-- `e.status >= n` under JavaScript semantics: `false` when `status` is
absent (`undefined >= n` is `false`). -/
def JsError.statusAtLeast (e : JsError) (n : Int) : Bool :=
  match e.status with
  | some s => n ≤ s
  | none => false

namespace OptimizedFetch

/-- Embedding of `OptimizedFetch.shouldRetry` (apiCache.js lines 278-285):

    if (error.name === 'AbortError') return false // Don't retry timeouts
    if (error.name === 'TypeError') return true // Network error
    if (error.status >= 500) return true // Server error
    if (error.status === 429) return true // Rate limit
    return false
-/
def shouldRetry (e : JsError) : Bool :=
  if e.name = "AbortError" then false
  else if e.name = "TypeError" then true
  else if e.statusAtLeast 500 then true
  else if e.status = some 429 then true
  else false

/-- Embedding of the retry loop in `OptimizedFetch.fetch` (apiCache.js
lines 210-243). `oracle n` is the outcome of the underlying `fetch` on
attempt `n`; `attempt` is the current loop index and `left` the number
of attempts still allowed after it (`retry - attempt`). The result pairs
the surfaced outcome (`return response` or `throw lastError`) with the
total number of attempts made.

    for (let attempt = 0; attempt <= retry; attempt++) {
      try { return await fetch(...) }
      catch (error) {
        lastError = error
        if (attempt < retry && this.shouldRetry(error)) { ...wait...; continue }
        break
      }
    }
    throw lastError
-/
def fetchGo (oracle : Nat → Except JsError α) (attempt : Nat) :
    Nat → Except JsError α × Nat
  | 0 => (oracle attempt, attempt + 1)
  | left + 1 =>
    match oracle attempt with
    | .ok v => (.ok v, attempt + 1)
    | .error e =>
      if shouldRetry e then fetchGo oracle (attempt + 1) left
      else (.error e, attempt + 1)

/-- The whole retry loop of `OptimizedFetch.fetch`, starting at attempt 0
with `retry = maxRetries` further attempts allowed. -/
def fetchLoop (oracle : Nat → Except JsError α) (retry : Nat) :
    Except JsError α × Nat :=
  fetchGo oracle 0 retry

end OptimizedFetch

/-- Embedding of `withRetry` (errorHandling.js lines 64-92), specialised
to its loop structure: `op n` is the outcome of `operation()` on attempt
`n`, `p` the configured `shouldRetry` predicate, `attempt` the current
index and `left` the remaining allowance (`maxRetries - attempt`). When
`left = 0` (i.e. `attempt === maxRetries`) the error is thrown without
consulting `p`. -/
def withRetryGo (op : Nat → Except ε α) (p : ε → Bool) (attempt : Nat) :
    Nat → Except ε α
  | 0 => op attempt
  | left + 1 =>
    match op attempt with
    | .ok v => .ok v
    | .error e =>
      if p e then withRetryGo op p (attempt + 1) left
      else .error e

/-- `withRetry operation { maxRetries, shouldRetry }` as used by the
summarizer service. -/
def withRetry (op : Nat → Except ε α) (maxRetries : Nat) (p : ε → Bool) :
    Except ε α :=
  withRetryGo op p 0 maxRetries

/-- The retry predicate passed to `withRetry` by
`generateDocumentSummary` (documentSummarizerService.js line 220):
`e => e.status >= 500 || e.status === 429`. -/
def summarizerShouldRetry (e : JsError) : Bool :=
  e.statusAtLeast 500 || e.status == some 429

/-! ## Lemmas about the retry loop -/

/-- The error surfaced by the fetch retry loop is exactly the error the
underlying fetch produced on the final attempt: no wrapping occurs. -/
theorem OptimizedFetch.fetchGo_error_surfaced
    (oracle : Nat → Except JsError α) (attempt left : Nat) (e : JsError)
    (h : (fetchGo oracle attempt left).1 = .error e) :
    oracle ((fetchGo oracle attempt left).2 - 1) = .error e := by
  induction left generalizing attempt with
  | zero =>
    simp only [fetchGo] at h ⊢
    simpa using h
  | succ n ih =>
    cases hor : oracle attempt with
    | ok v => simp [fetchGo, hor] at h
    | error e0 =>
      by_cases hr : shouldRetry e0
      · have hg : fetchGo oracle attempt (n + 1) = fetchGo oracle (attempt + 1) n := by
          simp [fetchGo, hor, hr]
        rw [hg] at h ⊢
        exact ih (attempt + 1) h
      · have hg : fetchGo oracle attempt (n + 1) = (.error e0, attempt + 1) := by
          simp [fetchGo, hor, hr]
        rw [hg] at h ⊢
        simp only [Except.error.injEq] at h
        subst h
        simpa using hor

/-- The fetch retry loop makes at most `left + 1` further attempts. -/
theorem OptimizedFetch.fetchGo_attempts_le
    (oracle : Nat → Except JsError α) (attempt left : Nat) :
    (fetchGo oracle attempt left).2 ≤ attempt + left + 1 := by
  induction left generalizing attempt with
  | zero => simp [fetchGo]
  | succ n ih =>
    cases hor : oracle attempt with
    | ok v => simp [fetchGo, hor]
    | error e0 =>
      by_cases hr : shouldRetry e0
      · have hg : fetchGo oracle attempt (n + 1) = fetchGo oracle (attempt + 1) n := by
          simp [fetchGo, hor, hr]
        rw [hg]
        have := ih (attempt + 1)
        omega
      · have hg : fetchGo oracle attempt (n + 1) = (.error e0, attempt + 1) := by
          simp [fetchGo, hor, hr]
        rw [hg]
        omega

/-! ## APICache (apiCache.js lines 46-169)

The JavaScript `Map` is modelled as an association list with unique
keys; `set` replaces an existing entry in place, `delete` removes it. -/

structure CacheItem (α : Type) where
  data : α
  expiry : Int
  created : Int
deriving DecidableEq, Repr

/-- The `cache` map of an `APICache` instance. -/
abbrev APICache (α : Type) := List (String × CacheItem α)

namespace APICache

/-- `this.cache.get(key)`: a `Map` holds at most one entry per key, so
lookup returns the entry stored under `key`, if any. -/
def lookup (c : APICache α) (key : String) : Option (CacheItem α) :=
  match c with
  | [] => none
  | p :: rest => if p.1 = key then some p.2 else lookup rest key

/-- `this.cache.delete(key)`: removes the entry stored under `key`
(keys are unique by construction, so removing every match coincides
with `Map.delete`). -/
def deleteKey (c : APICache α) (key : String) : APICache α :=
  c.filter (fun p => !(p.1 == key))

/-- Embedding of `APICache.get` (apiCache.js lines 70-80). Returns the
value handed back to the caller together with the cache state after the
call (unchanged, except for the lazy deletion of an expired entry).

    const item = this.cache.get(key)
    if (!item) return null
    if (Date.now() > item.expiry) { this.cache.delete(key); return null }
    return item.data
-/
def get (c : APICache α) (key : String) (now : Int) :
    Option α × APICache α :=
  match lookup c key with
  | none => (none, c)
  | some item =>
    if item.expiry < now then (none, deleteKey c key)
    else (some item.data, c)

/-- `this.cache.set(key, item)`: JavaScript `Map.set` replaces an
existing entry in place, otherwise appends a new one. -/
def setEntry (c : APICache α) (key : String) (item : CacheItem α) :
    APICache α :=
  match c with
  | [] => [(key, item)]
  | p :: rest =>
    if p.1 = key then (key, item) :: rest else p :: setEntry rest key item

/-- Embedding of `APICache.set` (apiCache.js lines 85-91): stores
`{ data, expiry: Date.now() + ttl, created: Date.now() }` under `key`,
replacing any existing entry (JavaScript `Map.set`). -/
def set (c : APICache α) (key : String) (data : α) (now ttl : Int) :
    APICache α :=
  setEntry c key { data := data, expiry := now + ttl, created := now }

/-- Embedding of the periodic sweep `APICache.cleanup` (apiCache.js
lines 117-124): deletes every entry whose expiry is strictly past. -/
def cleanup (c : APICache α) (now : Int) : APICache α :=
  c.filter (fun p => !(decide (p.2.expiry < now)))

theorem lookup_deleteKey (c : APICache α) (key : String) :
    lookup (deleteKey c key) key = none := by
  induction c with
  | nil => rfl
  | cons hd tl ih =>
    by_cases h : hd.1 = key
    · simpa [deleteKey, h] using ih
    · simpa [deleteKey, lookup, h] using ih

theorem lookup_setEntry (c : APICache α) (key : String) (item : CacheItem α) :
    lookup (setEntry c key item) key = some item := by
  induction c with
  | nil => simp [setEntry, lookup]
  | cons hd tl ih =>
    by_cases h : hd.1 = key
    · simp [setEntry, lookup, h]
    · simpa [setEntry, lookup, h] using ih

theorem lookup_set (c : APICache α) (key : String) (data : α) (now ttl : Int) :
    lookup (set c key data now ttl) key =
      some { data := data, expiry := now + ttl, created := now } :=
  lookup_setEntry c key _

end APICache

/-! ## Claim C1: retry classification in the resilient client -/

/-- Claim C1 counterexample. The claim classifies timeouts as transient
and asserts they are retried up to `maxRetries`. The code does the
opposite: `OptimizedFetch.shouldRetry` returns `false` for an
`AbortError` (the error raised when the request timeout fires), so on a
persistently timing-out endpoint the retry loop with `maxRetries = 3`
makes exactly one attempt — not four — and surfaces the timeout
immediately. -/
theorem C1_counterexample :
    OptimizedFetch.shouldRetry
        { name := "AbortError", status := none,
          message := "The operation was aborted" } = false ∧
      OptimizedFetch.fetchLoop
          (fun _ => .error { name := "AbortError", status := none,
                             message := "The operation was aborted" })
          (α := Unit) 3 =
        (.error { name := "AbortError", status := none,
                  message := "The operation was aborted" }, 1) := by
  exact ⟨rfl, rfl⟩

/-- Claim C1 (amended): in the resilient client's retry loop, retries
happen only on errors classified as transient, where the transient
class is network/connection failures (`TypeError`), 5xx responses, and
429 — timeouts (`AbortError`) are never retried; a 4xx error other than
429 (not itself a network `TypeError`) is never retried and the loop
stops on the first attempt; the loop makes at most `maxRetries + 1`
attempts; and the error surfaced after the final attempt is the very
error raised by that attempt, not a wrapper. The summarizer's own retry
predicate likewise retries only 5xx and 429 and never retries an error
carrying no HTTP status. -/
theorem C1_retry_policy (α : Type) :
    (∀ e : JsError, OptimizedFetch.shouldRetry e = true ↔
        (e.name ≠ "AbortError" ∧
          (e.name = "TypeError" ∨ e.statusAtLeast 500 = true ∨
            e.status = some 429))) ∧
      (∀ (e : JsError) (s : Int), e.status = some s → 400 ≤ s → s < 500 →
        s ≠ 429 → e.name ≠ "TypeError" →
        OptimizedFetch.shouldRetry e = false) ∧
      (∀ (oracle : Nat → Except JsError α) (retry : Nat) (e : JsError),
        oracle 0 = .error e → OptimizedFetch.shouldRetry e = false →
        OptimizedFetch.fetchLoop oracle retry = (.error e, 1)) ∧
      (∀ (oracle : Nat → Except JsError α) (retry : Nat) (e : JsError),
        (OptimizedFetch.fetchLoop oracle retry).1 = .error e →
        oracle ((OptimizedFetch.fetchLoop oracle retry).2 - 1) = .error e) ∧
      (∀ (oracle : Nat → Except JsError α) (retry : Nat),
        (OptimizedFetch.fetchLoop oracle retry).2 ≤ retry + 1) ∧
      (∀ e : JsError, e.status = none → summarizerShouldRetry e = false) := by
  refine ⟨?_, ?_, ?_, ?_, ?_, ?_⟩
  · intro e
    unfold OptimizedFetch.shouldRetry
    by_cases ha : e.name = "AbortError" <;>
      by_cases ht : e.name = "TypeError" <;>
        by_cases h5 : e.statusAtLeast 500 = true <;>
          by_cases h4 : e.status = some 429 <;>
            simp [ha, ht, h5, h4]
  · intro e s hs h400 h500 h429 hname
    unfold OptimizedFetch.shouldRetry
    have h5 : e.statusAtLeast 500 = false := by
      simp [JsError.statusAtLeast, hs]
      omega
    have h4 : ¬ e.status = some 429 := by
      rw [hs]
      simp
      omega
    by_cases ha : e.name = "AbortError" <;> simp [ha, hname, h5, h4]
  · intro oracle retry e h0 hnr
    cases retry with
    | zero => simp [OptimizedFetch.fetchLoop, OptimizedFetch.fetchGo, h0]
    | succ n =>
      simp [OptimizedFetch.fetchLoop, OptimizedFetch.fetchGo, h0, hnr]
  · intro oracle retry e h
    exact OptimizedFetch.fetchGo_error_surfaced oracle 0 retry e h
  · intro oracle retry
    simpa using OptimizedFetch.fetchGo_attempts_le oracle 0 retry
  · intro e hs
    simp [summarizerShouldRetry, JsError.statusAtLeast, hs]

/-- Claim C1 amended-theorem witness: a plain 400 response is not
retried — with `maxRetries = 3` the loop stops after one attempt and
surfaces that very error. -/
theorem C1_retry_policy_witness :
    OptimizedFetch.fetchLoop
        (fun _ => .error { name := "Error", status := some 400,
                           message := "Bad Request" })
        (α := Unit) 3 =
      (.error { name := "Error", status := some 400,
                message := "Bad Request" }, 1) :=
  (C1_retry_policy Unit).2.2.1
    (fun _ => .error { name := "Error", status := some 400,
                       message := "Bad Request" })
    3 _ rfl (by decide)

/-! ## Claim C4: lazy TTL expiry in the cache -/

/-- Claim C4: a `get` issued after an entry's expiry time reports
absent (`null`) and lazily deletes the entry, with no sweep involved
(the statement holds for an arbitrary cache state, swept or not); no
entry is ever returned once its TTL has elapsed: a returned value
always comes from an entry whose expiry has not passed; and a value
stored with TTL `ttl` at time `now0` is absent, and its entry deleted,
on any `get` after `now0 + ttl`. -/
theorem C4_cache_lazy_expiry (α : Type) :
    (∀ (c : APICache α) (key : String) (now : Int) (item : CacheItem α),
        APICache.lookup c key = some item → item.expiry < now →
        (APICache.get c key now).1 = none ∧
          APICache.lookup (APICache.get c key now).2 key = none) ∧
      (∀ (c : APICache α) (key : String) (now : Int) (d : α),
        (APICache.get c key now).1 = some d →
        ∃ item : CacheItem α, APICache.lookup c key = some item ∧
          item.data = d ∧ now ≤ item.expiry) ∧
      (∀ (c : APICache α) (key : String) (d : α) (now0 ttl now1 : Int),
        now0 + ttl < now1 →
        (APICache.get (APICache.set c key d now0 ttl) key now1).1 = none ∧
          APICache.lookup
            (APICache.get (APICache.set c key d now0 ttl) key now1).2 key =
            none) := by
  have hexp : ∀ (c : APICache α) (key : String) (now : Int)
      (item : CacheItem α),
      APICache.lookup c key = some item → item.expiry < now →
      (APICache.get c key now).1 = none ∧
        APICache.lookup (APICache.get c key now).2 key = none := by
    intro c key now item hl hlt
    simp only [APICache.get, hl]
    rw [if_pos hlt]
    exact ⟨rfl, APICache.lookup_deleteKey c key⟩
  refine ⟨hexp, ?_, ?_⟩
  · intro c key now d hget
    cases hl : APICache.lookup c key with
    | none => simp [APICache.get, hl] at hget
    | some item =>
      by_cases hlt : item.expiry < now
      · simp [APICache.get, hl, hlt] at hget
      · simp only [APICache.get, hl, if_neg hlt] at hget
        simp only [Option.some.injEq] at hget
        exact ⟨item, rfl, hget, le_of_not_lt hlt⟩
  · intro c key d now0 ttl now1 hlt
    exact hexp _ key now1 _ (APICache.lookup_set c key d now0 ttl) hlt

/-- Claim C4 witness: in a one-entry cache whose entry expired at time
10, a `get` at time 11 reports absent and removes the entry. -/
theorem C4_cache_lazy_expiry_witness :
    (APICache.get [("k", { data := (0 : Nat), expiry := 10, created := 0 })]
        "k" 11).1 = none ∧
      APICache.lookup
        (APICache.get [("k", { data := (0 : Nat), expiry := 10, created := 0 })]
          "k" 11).2 "k" = none :=
  (C4_cache_lazy_expiry Nat).1
    [("k", { data := 0, expiry := 10, created := 0 })] "k" 11
    { data := 0, expiry := 10, created := 0 } rfl (by decide)

/-! ## CircuitBreaker (errorHandling.js lines 398-495)

The breaker's observable behaviour is driven by `execute` invocations:
each carries the clock value `now` at which it runs and the outcome of
the guarded operation (`ok = true` for success). While OPEN and before
the reset cooldown, `execute` fails fast without running the operation,
so neither `onSuccess` nor `onFailure` fires. `lastFailureTime` starts
as `null`; JavaScript coerces `null` to `0` in `Date.now() -
this.lastFailureTime`, which `Option.getD 0` reproduces. -/

inductive CBState where
  | CLOSED
  | OPEN
  | HALF_OPEN
deriving DecidableEq, Repr

structure CBConfig where
  failureThreshold : Nat
  resetTimeout : Int
  monitoringPeriod : Int
deriving DecidableEq, Repr

structure CircuitBreaker where
  state : CBState
  failureCount : Nat
  lastFailureTime : Option Int
  successCount : Nat
  requestHistory : List (Int × Bool)
deriving DecidableEq, Repr

namespace CircuitBreaker

/-- The freshly constructed breaker. -/
def init : CircuitBreaker :=
  { state := .CLOSED, failureCount := 0, lastFailureTime := none,
    successCount := 0, requestHistory := [] }

/-- `recordRequest(success)` (lines 467-475): append the outcome, then
prune records older than the monitoring period. -/
def recordRequest (cfg : CBConfig) (b : CircuitBreaker) (now : Int)
    (success : Bool) : CircuitBreaker :=
  let hist := (b.requestHistory ++ [(now, success)]).filter
    (fun r => now - r.1 ≤ cfg.monitoringPeriod)
  { b with requestHistory := hist }

/-- `reset()` (lines 459-465). -/
def reset (b : CircuitBreaker) : CircuitBreaker :=
  { b with
      state := .CLOSED
      failureCount := 0
      successCount := 0
      lastFailureTime := none }

/-- `onSuccess()` (lines 431-442). -/
def onSuccess (cfg : CBConfig) (b : CircuitBreaker) (now : Int) :
    CircuitBreaker :=
  let b := recordRequest cfg b now true
  if b.state = .HALF_OPEN then
    let b := { b with successCount := b.successCount + 1 }
    if 3 ≤ b.successCount then reset b else b
  else
    { b with failureCount := b.failureCount - 1 }

/-- `onFailure(error)` (lines 444-453). -/
def onFailure (cfg : CBConfig) (b : CircuitBreaker) (now : Int) :
    CircuitBreaker :=
  let b := recordRequest cfg b now false
  let b := { b with
      failureCount := b.failureCount + 1
      lastFailureTime := some now }
  if cfg.failureThreshold ≤ b.failureCount then { b with state := .OPEN }
  else b

/-- `shouldAttemptReset()` (lines 455-457). -/
def shouldAttemptReset (cfg : CBConfig) (b : CircuitBreaker) (now : Int) :
    Bool :=
  cfg.resetTimeout ≤ now - (b.lastFailureTime.getD 0)

/-- One `execute(operation)` invocation (lines 411-429) at clock `now`
whose guarded operation, if it runs, has outcome `ok`. While OPEN and
before the cooldown the breaker throws without running the operation,
leaving its state untouched. -/
def execute (cfg : CBConfig) (b : CircuitBreaker) (now : Int) (ok : Bool) :
    CircuitBreaker :=
  if b.state = .OPEN then
    if shouldAttemptReset cfg b now then
      let b1 := { b with state := .HALF_OPEN, successCount := 0 }
      if ok then onSuccess cfg b1 now else onFailure cfg b1 now
    else b
  else if ok then onSuccess cfg b now else onFailure cfg b now

/-- A breaker state reached from `init` by a sequence of `execute`
events `(now, ok)`. -/
def runCB (cfg : CBConfig) (evs : List (Int × Bool)) : CircuitBreaker :=
  evs.foldl (fun b e => execute cfg b e.1 e.2) init

/-- Reachability invariant: away from CLOSED the failure count has
reached the threshold (OPEN is only entered when it does, entering
HALF_OPEN leaves it untouched, and inside HALF_OPEN only `reset` or
`onFailure` touch it). -/
def Inv (cfg : CBConfig) (b : CircuitBreaker) : Prop :=
  (b.state = .OPEN ∨ b.state = .HALF_OPEN) →
    cfg.failureThreshold ≤ b.failureCount

theorem inv_init (cfg : CBConfig) : Inv cfg init := by
  intro h
  rcases h with h | h <;> simp [init] at h

theorem inv_execute (cfg : CBConfig) (b : CircuitBreaker) (now : Int)
    (ok : Bool) (hb : Inv cfg b) : Inv cfg (execute cfg b now ok) := by
  unfold execute
  by_cases hopen : b.state = .OPEN
  · rw [if_pos hopen]
    by_cases hrst : shouldAttemptReset cfg b now
    · rw [if_pos hrst]
      have hthr : cfg.failureThreshold ≤ b.failureCount := hb (Or.inl hopen)
      cases ok with
      | true =>
        simp only [if_pos]
        unfold onSuccess recordRequest reset
        simp only
        by_cases h3 : 3 ≤ 0 + 1
        · omega
        · intro _
          simpa using hthr
      | false =>
        simp only [Bool.false_eq_true, if_neg, if_false]
        unfold onFailure recordRequest
        simp only
        by_cases hth2 : cfg.failureThreshold ≤ b.failureCount + 1
        · rw [if_pos hth2]
          intro _
          simpa using hth2
        · rw [if_neg hth2]
          intro _
          show cfg.failureThreshold ≤ b.failureCount + 1
          omega
    · rw [if_neg hrst]
      exact hb
  · rw [if_neg hopen]
    cases ok with
    | true =>
      simp only [if_pos]
      unfold onSuccess recordRequest reset
      simp only
      by_cases hhalf : b.state = .HALF_OPEN
      · rw [if_pos (by simpa using hhalf)]
        by_cases h3 : 3 ≤ b.successCount + 1
        · rw [if_pos (by simpa using h3)]
          intro h
          rcases h with h | h <;> simp at h
        · rw [if_neg (by simpa using h3)]
          intro h
          have := hb (by simpa using h)
          simpa using this
      · rw [if_neg (by simpa using hhalf)]
        intro h
        rcases h with h | h
        · exact absurd (by simpa using h) hopen
        · exact absurd (by simpa using h) hhalf
    | false =>
      simp only [Bool.false_eq_true, if_neg, if_false]
      unfold onFailure recordRequest
      simp only
      by_cases hth2 : cfg.failureThreshold ≤ b.failureCount + 1
      · rw [if_pos hth2]
        intro _
        simpa using hth2
      · rw [if_neg hth2]
        intro h
        have := hb (by simpa using h)
        simp only
        omega

theorem inv_runCB (cfg : CBConfig) (evs : List (Int × Bool)) :
    Inv cfg (runCB cfg evs) := by
  suffices h : ∀ (b : CircuitBreaker), Inv cfg b →
      Inv cfg (evs.foldl (fun b e => execute cfg b e.1 e.2) b) by
    exact h init (inv_init cfg)
  induction evs with
  | nil => intro b hb; exact hb
  | cons hd tl ih =>
    intro b hb
    exact ih _ (inv_execute cfg b hd.1 hd.2 hb)

end CircuitBreaker

/-! ## Claim C2: the circuit breaker's permitted transitions -/

/-- Claim C2: over every reachable sequence of execute/success/failure
events, the breaker permits only these transitions. From CLOSED it can
move only to OPEN, and does so exactly when a failure brings
`failureCount` to the failure threshold. From OPEN, nothing changes
before the reset cooldown has elapsed since the last failure; a move to
HALF_OPEN happens only once it has (and begins a fresh probe count);
OPEN never moves directly to CLOSED. From HALF_OPEN it moves to CLOSED
exactly when a probe success is the third consecutive one (probe
successes below that leave it in HALF_OPEN, counting up), and any probe
failure sends it back to OPEN, recording the failure time. -/
theorem C2_breaker_transitions (cfg : CBConfig) (evs : List (Int × Bool))
    (now : Int) (ok : Bool) (b b2 : CircuitBreaker)
    (hb : b = CircuitBreaker.runCB cfg evs)
    (hb2 : b2 = CircuitBreaker.execute cfg b now ok) :
    (b.state = .CLOSED →
      ((b2.state = .CLOSED ∨ b2.state = .OPEN) ∧
        (b2.state = .OPEN ↔
          (ok = false ∧ cfg.failureThreshold ≤ b.failureCount + 1)))) ∧
    (b.state = .OPEN →
      ((CircuitBreaker.shouldAttemptReset cfg b now = false → b2 = b) ∧
        (b2.state = .HALF_OPEN →
          CircuitBreaker.shouldAttemptReset cfg b now = true) ∧
        b2.state ≠ .CLOSED ∧
        (b2.state = .HALF_OPEN → b2.successCount = 1))) ∧
    (b.state = .HALF_OPEN →
      ((b2.state = .CLOSED ↔ (ok = true ∧ 3 ≤ b.successCount + 1)) ∧
        (ok = false → b2.state = .OPEN ∧ b2.lastFailureTime = some now) ∧
        (ok = true → b.successCount + 1 < 3 →
          b2.state = .HALF_OPEN ∧ b2.successCount = b.successCount + 1))) := by
  have hinv : CircuitBreaker.Inv cfg b := by
    rw [hb]
    exact CircuitBreaker.inv_runCB cfg evs
  clear hb
  subst hb2
  refine ⟨?_, ?_, ?_⟩
  · intro hst
    have hnotopen : ¬ b.state = CBState.OPEN := by simp [hst]
    cases ok with
    | true =>
      constructor
      · left
        simp [CircuitBreaker.execute, hnotopen, CircuitBreaker.onSuccess,
          CircuitBreaker.recordRequest, hst]
      · simp [CircuitBreaker.execute, hnotopen, CircuitBreaker.onSuccess,
          CircuitBreaker.recordRequest, hst]
    | false =>
      by_cases hth2 : cfg.failureThreshold ≤ b.failureCount + 1
      · constructor
        · right
          simp [CircuitBreaker.execute, hnotopen, CircuitBreaker.onFailure,
            CircuitBreaker.recordRequest, hth2]
        · simp [CircuitBreaker.execute, hnotopen, CircuitBreaker.onFailure,
            CircuitBreaker.recordRequest, hth2]
      · constructor
        · left
          simp [CircuitBreaker.execute, hnotopen, CircuitBreaker.onFailure,
            CircuitBreaker.recordRequest, hth2, hst]
        · simp [CircuitBreaker.execute, hnotopen, CircuitBreaker.onFailure,
            CircuitBreaker.recordRequest, hth2, hst]
  · intro hst
    have hthr : cfg.failureThreshold ≤ b.failureCount := hinv (Or.inl hst)
    by_cases hrst : CircuitBreaker.shouldAttemptReset cfg b now = true
    · have hb2eq := hrst
      cases ok with
      | true =>
        refine ⟨?_, ?_, ?_, ?_⟩
        · intro hfalse
          rw [hrst] at hfalse
          exact absurd hfalse (by simp)
        · intro _
          exact hrst
        · simp [CircuitBreaker.execute, hst, hrst, CircuitBreaker.onSuccess,
            CircuitBreaker.recordRequest, CircuitBreaker.reset]
        · intro _
          simp [CircuitBreaker.execute, hst, hrst, CircuitBreaker.onSuccess,
            CircuitBreaker.recordRequest, CircuitBreaker.reset]
      | false =>
        have hth2 : cfg.failureThreshold ≤ b.failureCount + 1 := by omega
        refine ⟨?_, ?_, ?_, ?_⟩
        · intro hfalse
          rw [hrst] at hfalse
          exact absurd hfalse (by simp)
        · intro _
          exact hrst
        · simp [CircuitBreaker.execute, hst, hrst, CircuitBreaker.onFailure,
            CircuitBreaker.recordRequest, hth2]
        · intro hhalf
          exfalso
          revert hhalf
          simp [CircuitBreaker.execute, hst, hrst, CircuitBreaker.onFailure,
            CircuitBreaker.recordRequest, hth2]
    · have hrst2 : CircuitBreaker.shouldAttemptReset cfg b now = false := by
        simpa using hrst
      have hid : CircuitBreaker.execute cfg b now ok = b := by
        simp [CircuitBreaker.execute, hst, hrst2]
      refine ⟨fun _ => hid, ?_, ?_, ?_⟩
      · intro hhalf
        rw [hid] at hhalf
        rw [hst] at hhalf
        exact absurd hhalf (by simp)
      · rw [hid, hst]
        simp
      · intro hhalf
        rw [hid, hst] at hhalf
        exact absurd hhalf (by simp)
  · intro hst
    have hthr : cfg.failureThreshold ≤ b.failureCount := hinv (Or.inr hst)
    have hnotopen : ¬ b.state = CBState.OPEN := by simp [hst]
    cases ok with
    | true =>
      by_cases h3 : 3 ≤ b.successCount + 1
      · refine ⟨?_, by simp, ?_⟩
        · simp [CircuitBreaker.execute, hnotopen, CircuitBreaker.onSuccess,
            CircuitBreaker.recordRequest, hst, h3, CircuitBreaker.reset]
        · intro _ hlt
          omega
      · refine ⟨?_, by simp, ?_⟩
        · simp [CircuitBreaker.execute, hnotopen, CircuitBreaker.onSuccess,
            CircuitBreaker.recordRequest, hst, h3]
        · intro _ _
          simp [CircuitBreaker.execute, hnotopen, CircuitBreaker.onSuccess,
            CircuitBreaker.recordRequest, hst, h3]
    | false =>
      have hth2 : cfg.failureThreshold ≤ b.failureCount + 1 := by omega
      refine ⟨?_, ?_, by simp⟩
      · simp [CircuitBreaker.execute, hnotopen, CircuitBreaker.onFailure,
          CircuitBreaker.recordRequest, hth2]
      · intro _
        simp [CircuitBreaker.execute, hnotopen, CircuitBreaker.onFailure,
          CircuitBreaker.recordRequest, hth2]

/-- Claim C2 witness: with threshold 3, three failures at times 0, 1, 2
drive the breaker from CLOSED to OPEN; a probe failing at time 40000
(past the 30000ms cooldown) does not close the breaker. -/
theorem C2_breaker_transitions_witness :
    (CircuitBreaker.execute ⟨3, 30000, 300000⟩
      (CircuitBreaker.runCB ⟨3, 30000, 300000⟩
        [(0, false), (1, false), (2, false)])
      40000 false).state ≠ CBState.CLOSED := by
  have h := C2_breaker_transitions ⟨3, 30000, 300000⟩
    [(0, false), (1, false), (2, false)] 40000 false _ _ rfl rfl
  exact (h.2.1 (by decide)).2.2.1

/-! ## RequestDeduplicator (apiCache.js lines 329-374)

`execute(key, requestFn)` synchronously checks `pendingRequests` and
either returns the stored pending promise or invokes `requestFn` once,
storing `requestFn().finally(() => pendingRequests.delete(key))`.
Because the stored (and returned) promise settles only after the
`finally` cleanup has run, the map entry is gone by the time any waiter
observes the outcome.

The model fixes one key and tracks its map entry explicitly. Underlying
operations ("invocations of `requestFn`") are numbered by a counter
`nextId`; `joined` records which operation's promise each caller was
handed; `completed` records operations whose promise has settled,
together with the settled outcome. Events are: `call c` (caller `c`
invokes `execute`), `settle p o` (operation `p` settles with outcome
`o`; its `finally` deletes the key entry in the same step, before any
waiter sees `o`), and `cancel` (`cancel(key)`, which only deletes the
map entry). A caller's observed outcome is the settled outcome of the
operation whose promise it holds. -/

/-- Association-list lookup keyed by operation/caller numbers. -/
def assocLookup (l : List (Nat × β)) (k : Nat) : Option β :=
  match l with
  | [] => none
  | p :: rest => if p.1 = k then some p.2 else assocLookup rest k

structure DedupState (ο : Type) where
  entry : Option Nat
  nextId : Nat
  joined : List (Nat × Nat)
  completed : List (Nat × ο)
deriving DecidableEq, Repr

inductive DedupEvent (ο : Type) where
  | call (caller : Nat)
  | settle (op : Nat) (outcome : ο)
  | cancel
deriving DecidableEq, Repr

/-- Fresh deduplicator: `this.pendingRequests = new Map()`. -/
def dedupInit : DedupState ο :=
  { entry := none, nextId := 0, joined := [], completed := [] }

/-- One deduplicator event (see the section comment). -/
def dedupStep (s : DedupState ο) : DedupEvent ο → DedupState ο
  | .call c =>
    match s.entry with
    | some p => { s with joined := s.joined ++ [(c, p)] }
    | none =>
      { s with
          entry := some s.nextId
          nextId := s.nextId + 1
          joined := s.joined ++ [(c, s.nextId)] }
  | .settle p o =>
    { s with
        entry := none
        completed := s.completed ++ [(p, o)] }
  | .cancel => { s with entry := none }

/-- A deduplicator state reached by a sequence of events. -/
def runDedup (s : DedupState ο) (evs : List (DedupEvent ο)) : DedupState ο :=
  evs.foldl dedupStep s

/-- The outcome caller `c` observes: the settled outcome of the
operation whose promise `execute` handed to it (`none` while that
operation is still pending). -/
def received (s : DedupState ο) (c : Nat) : Option ο :=
  (assocLookup s.joined c).bind (fun p => assocLookup s.completed p)

theorem runDedup_cons (s : DedupState ο) (e : DedupEvent ο)
    (evs : List (DedupEvent ο)) :
    runDedup s (e :: evs) = runDedup (dedupStep s e) evs := rfl

/-- While an operation `p` is pending under the key, any number of
further calls join it without starting new operations. -/
theorem runDedup_calls (p n : Nat) (j : List (Nat × Nat))
    (comp : List (Nat × ο)) (cs : List Nat) :
    runDedup
        { entry := some p, nextId := n, joined := j, completed := comp }
        (cs.map .call) =
      { entry := some p, nextId := n,
        joined := j ++ cs.map (fun c => (c, p)), completed := comp } := by
  induction cs generalizing j with
  | nil => simp [runDedup]
  | cons c rest ih =>
    rw [List.map_cons, runDedup_cons]
    simp only [dedupStep]
    rw [ih]
    simp

theorem assocLookup_const (l : List (Nat × Nat)) (c v : Nat)
    (hall : ∀ q ∈ l, q.2 = v) (hmem : c ∈ l.map Prod.fst) :
    assocLookup l c = some v := by
  induction l with
  | nil => simp at hmem
  | cons hd tl ih =>
    by_cases h : hd.1 = c
    · have h2 := hall hd (by simp)
      simp [assocLookup, h, h2]
    · simp only [List.map_cons, List.mem_cons] at hmem
      have hmem2 : c ∈ tl.map Prod.fst := by
        rcases hmem with hmem | hmem
        · exact absurd hmem.symm h
        · exact hmem
      have hall2 : ∀ q ∈ tl, q.2 = v := by
        intro q hq
        exact hall q (List.mem_cons_of_mem hd hq)
      simpa [assocLookup, h] using ih hall2 hmem2

/-! ## Claim C3: deduplication of concurrent identical calls -/

/-- Claim C3: for a first call `c0` and any further callers `cs`
arriving with the same key while the operation is pending, the
underlying operation runs exactly once (`nextId = 1`) and every caller
is handed that operation's promise; when it settles with outcome `o`
(the same value or the same error for everyone), the pending entry is
removed in the settle step itself — before any waiter observes `o` —
and every caller observes exactly `o`; any call with the same key
issued after completion starts a fresh operation. -/
theorem C3_dedup_single_flight (ο : Type) (c0 : Nat) (cs : List Nat)
    (o : ο) (s1 s2 : DedupState ο)
    (h1 : s1 = runDedup dedupInit (.call c0 :: cs.map .call))
    (h2 : s2 = dedupStep s1 (.settle 0 o)) :
    (s1.nextId = 1 ∧ s1.entry = some 0 ∧
      (∀ c, (c = c0 ∨ c ∈ cs) → assocLookup s1.joined c = some 0)) ∧
    s2.entry = none ∧
    (∀ c, (c = c0 ∨ c ∈ cs) → received s2 c = some o) ∧
    (∀ c2, (dedupStep s2 (.call c2)).entry = some 1 ∧
      (dedupStep s2 (.call c2)).nextId = 2) := by
  have hstep : dedupStep (dedupInit (ο := ο)) (.call c0) =
      ⟨some 0, 1, [(c0, 0)], []⟩ := rfl
  have hs1 : s1 = ⟨some 0, 1, (c0, 0) :: cs.map (fun c => (c, 0)), []⟩ := by
    rw [h1, runDedup_cons, hstep, runDedup_calls]
    simp
  have hjoin : ∀ c, (c = c0 ∨ c ∈ cs) →
      assocLookup ((c0, 0) :: cs.map (fun c => (c, 0))) c = some 0 := by
    intro c hc
    apply assocLookup_const
    · intro q hq
      simp only [List.mem_cons, List.mem_map] at hq
      rcases hq with hq | ⟨a, _, hq⟩
      · rw [hq]
      · rw [← hq]
    · simp only [List.map_cons, List.map_map, List.mem_cons]
      rcases hc with hc | hc
      · exact Or.inl hc
      · right
        simpa [Function.comp] using hc
  have hs2 : s2 = ⟨none, 1, (c0, 0) :: cs.map (fun c => (c, 0)), [(0, o)]⟩ := by
    rw [h2, hs1]
    rfl
  refine ⟨⟨by rw [hs1], by rw [hs1], ?_⟩, by rw [hs2], ?_, ?_⟩
  · intro c hc
    rw [hs1]
    exact hjoin c hc
  · intro c hc
    rw [hs2]
    unfold received
    rw [hjoin c hc]
    rfl
  · intro c2
    rw [hs2]
    exact ⟨rfl, rfl⟩

/-- Claim C3 witness: callers 5, 6, 7 share one operation; caller 6
observes the settled outcome 42 of operation 0. -/
theorem C3_dedup_single_flight_witness :
    received
        (dedupStep
          (runDedup dedupInit
            (DedupEvent.call 5 :: List.map DedupEvent.call [6, 7]))
          (DedupEvent.settle 0 (42 : Nat)))
        6 = some 42 := by
  have h := C3_dedup_single_flight Nat 5 [6, 7] 42 _ _ rfl rfl
  exact h.2.2.1 6 (by simp)

/-! ## Claim C9: `cancel(key)` only forgets the map entry -/

/-- Claim C9: `cancel(key)` deletes only the pending-map entry: it
neither aborts nor settles the in-flight operation (nothing is added to
`completed`), and the earlier waiter still observes that operation's
outcome once it settles. A call made after `cancel` while the first
operation is still pending invokes its request function, so two
underlying operations (ids 0 and 1, neither completed) are in flight
concurrently. -/
theorem C9_cancel_leaves_inflight (ο : Type) (o : ο)
    (s3 s4 : DedupState ο)
    (h3 : s3 = runDedup dedupInit [.call 1, .cancel, .call 2])
    (h4 : s4 = dedupStep s3 (.settle 0 o)) :
    s3.nextId = 2 ∧ s3.completed = [] ∧ s3.entry = some 1 ∧
    assocLookup s3.joined 1 = some 0 ∧ assocLookup s3.joined 2 = some 1 ∧
    received s4 1 = some o ∧ received s4 2 = none := by
  have hs3 : s3 = ⟨some 1, 2, [(1, 0), (2, 1)], []⟩ := by
    rw [h3]
    rfl
  have hs4 : s4 = ⟨none, 2, [(1, 0), (2, 1)], [(0, o)]⟩ := by
    rw [h4, hs3]
    rfl
  rw [hs3, hs4]
  refine ⟨rfl, rfl, rfl, rfl, rfl, rfl, rfl⟩

/-- Claim C9 witness: with outcome 9 for the first operation, the
earlier waiter (caller 1) still observes 9 after the cancel, while the
second operation is a distinct in-flight one. -/
theorem C9_cancel_leaves_inflight_witness :
    received
        (dedupStep
          (runDedup dedupInit
            [DedupEvent.call 1, DedupEvent.cancel, DedupEvent.call 2])
          (DedupEvent.settle 0 (9 : Nat)))
        1 = some 9 := by
  have h := C9_cancel_leaves_inflight Nat 9 _ _ rfl rfl
  exact h.2.2.2.2.2.1

/-! ## RateLimiter (apiCache.js lines 379-424)

`requests` holds the admission timestamps. `checkLimit` prunes stale
timestamps, then either pushes `now` and admits, or (when the window is
full) computes how long until the oldest in-window timestamp ages out
and waits before re-checking; one round of that loop is `checkRound`,
whose `mustWait` outcome corresponds to entering the wait.
`getRemainingRequests` also prunes (reassigning `this.requests`) and
returns `Math.max(0, maxRequests - requests.length)`. `Math.min()` of
an empty array is `Infinity`, making `waitTime` negative, so the wait
branch is skipped and the push happens; the `none` case of `min?`
reproduces that. -/

structure RateLimiter where
  maxRequests : Nat
  windowMs : Int
  requests : List Int
deriving DecidableEq, Repr

inductive RLDecision where
  | admitted
  | mustWait (ms : Int)
deriving DecidableEq, Repr

namespace RateLimiter

/-- `this.requests = this.requests.filter(time => now - time < this.windowMs)`. -/
def prune (l : RateLimiter) (now : Int) : List Int :=
  l.requests.filter (fun t => now - t < l.windowMs)

/-- Embedding of `getRemainingRequests` (lines 419-423), returning the
reported count together with the limiter state after the call. -/
def getRemainingRequests (l : RateLimiter) (now : Int) :
    Nat × RateLimiter :=
  let pruned := prune l now
  (l.maxRequests - pruned.length, { l with requests := pruned })

/-- One round of `checkLimit` (lines 389-407) at clock `now`: prune,
then admit-and-push, or report the wait before the recursive re-check. -/
def checkRound (l : RateLimiter) (now : Int) : RLDecision × RateLimiter :=
  let pruned := prune l now
  if l.maxRequests ≤ pruned.length then
    match pruned.min? with
    | some oldest =>
      let waitTime := l.windowMs - (now - oldest)
      if 0 < waitTime then (.mustWait waitTime, { l with requests := pruned })
      else (.admitted, { l with requests := pruned ++ [now] })
    | none => (.admitted, { l with requests := pruned ++ [now] })
  else (.admitted, { l with requests := pruned ++ [now] })

end RateLimiter

/-- An operation against the limiter: a `checkLimit` round or a
pre-flight `getRemainingRequests` call. -/
inductive RLOp where
  | attempt
  | preflight
deriving DecidableEq, Repr

/-- What a limiter operation reports to its caller. -/
inductive RLObs where
  | decision (d : RLDecision)
  | remaining (n : Nat)
deriving DecidableEq, Repr

def rlStep (l : RateLimiter) : RLOp × Int → RLObs × RateLimiter
  | (.attempt, t) =>
    let r := RateLimiter.checkRound l t
    (.decision r.1, r.2)
  | (.preflight, t) =>
    let r := RateLimiter.getRemainingRequests l t
    (.remaining r.1, r.2)

/-- The sequence of observations a timed operation sequence produces. -/
def rlRun (l : RateLimiter) : List (RLOp × Int) → List RLObs
  | [] => []
  | op :: ops =>
    let r := rlStep l op
    r.1 :: rlRun r.2 ops

/-- Pruning at `now` and then at a later instant `t` is the same as
pruning at `t` alone: entries stale at `now` are still stale at `t`. -/
theorem RateLimiter.prune_getRemaining (l : RateLimiter) (now t : Int)
    (h : now ≤ t) :
    prune (getRemainingRequests l now).2 t = prune l t := by
  simp only [prune, getRemainingRequests]
  rw [List.filter_filter]
  apply List.filter_congr
  intro a _
  by_cases hq : t - a < l.windowMs
  · have hp : now - a < l.windowMs := by omega
    simp [hp, hq]
  · simp [hq]

/-- A limiter operation at `t ≥ now` behaves identically (same
observation, same resulting state) whether or not a pre-flight check
ran at `now` first. -/
theorem rlStep_after_preflight (l : RateLimiter) (now t : Int)
    (h : now ≤ t) (op : RLOp) :
    rlStep (RateLimiter.getRemainingRequests l now).2 (op, t) =
      rlStep l (op, t) := by
  obtain ⟨m, w, reqs⟩ := l
  have hpr := RateLimiter.prune_getRemaining ⟨m, w, reqs⟩ now t h
  simp only [RateLimiter.getRemainingRequests] at hpr
  cases op with
  | attempt =>
    simp only [rlStep, RateLimiter.checkRound, RateLimiter.getRemainingRequests]
    rw [hpr]
  | preflight =>
    simp only [rlStep, RateLimiter.getRemainingRequests]
    rw [hpr]

/-! ## Claim C8: the pre-flight check is observationally pure -/

/-- Claim C8 counterexample. The claim says the non-blocking pre-flight
check reports the remaining quota *and time to reset*. The code's
`getRemainingRequests` returns only a count: two limiter states whose
times to reset differ (their blocking path would wait 900ms
vs. 999ms, as `checkRound`'s computed wait shows) produce identical
pre-flight reports, so the pre-flight check reports no time-to-reset
at all. -/
theorem C8_counterexample :
    (RateLimiter.getRemainingRequests ⟨1, 1000, [0]⟩ 100).1 =
      (RateLimiter.getRemainingRequests ⟨1, 1000, [99]⟩ 100).1 ∧
    (RateLimiter.checkRound ⟨1, 1000, [0]⟩ 100).1 ≠
      (RateLimiter.checkRound ⟨1, 1000, [99]⟩ 100).1 := by
  constructor
  · rfl
  · decide

/-- Claim C8 (amended): the non-blocking pre-flight check reports the
remaining quota (only — no time-to-reset value is returned) and does
not mutate the limiter's observable state: although it reassigns
`this.requests` to its pruned form, every subsequent admit/check
observation, at any later instants, is identical to what it would have
been without the pre-flight check. -/
theorem C8_preflight_frame (l : RateLimiter) (now : Int)
    (ops : List (RLOp × Int)) (hmono : ∀ p ∈ ops, now ≤ p.2) :
    (RateLimiter.getRemainingRequests l now).1 =
      l.maxRequests - (RateLimiter.prune l now).length ∧
    rlRun (RateLimiter.getRemainingRequests l now).2 ops = rlRun l ops := by
  refine ⟨rfl, ?_⟩
  cases ops with
  | nil => rfl
  | cons op rest =>
    obtain ⟨o, t⟩ := op
    have h1 := rlStep_after_preflight l now t
      (hmono (o, t) (by simp)) o
    simp only [rlRun]
    rw [h1]

/-- Claim C8 witness: a pre-flight check at time 500 leaves the
observations of an admission attempt at 600 and a further check at 700
unchanged. -/
theorem C8_preflight_frame_witness :
    rlRun (RateLimiter.getRemainingRequests ⟨2, 1000, [0, 50]⟩ 500).2
        [(RLOp.attempt, 600), (RLOp.preflight, 700)] =
      rlRun ⟨2, 1000, [0, 50]⟩ [(RLOp.attempt, 600), (RLOp.preflight, 700)] :=
  (C8_preflight_frame ⟨2, 1000, [0, 50]⟩ 500
    [(RLOp.attempt, 600), (RLOp.preflight, 700)] (by decide)).2

/-! ## validatePDFFile (enhancedPdfProcessor, part_006 lines 12-62)

A `File` is modelled by the properties `validatePDFFile` consults: its
MIME `type`, its byte `size`, the first (up to four) bytes a successful
`slice(0, 4).arrayBuffer()` read yields, and whether that read
succeeds. The function only reads; it resolves with no value and the
file object is untouched (the model is a pure function of the file). -/

structure JsFile where
  type : String
  size : Nat
  firstBytes : List Nat
  readOk : Bool
deriving DecidableEq, Repr

structure ValidationError where
  message : String
  field : Option String
deriving DecidableEq, Repr

def MAX_FILE_SIZE : Nat := 10 * 1024 * 1024

def MIN_FILE_SIZE : Nat := 1024

def ALLOWED_MIME_TYPES : List String := ["application/pdf"]

def PDF_MAGIC_NUMBERS : List (List Nat) := [[0x25, 0x50, 0x44, 0x46]]

/-- `magic.every((byte, index) => bytes[index] === byte)`: positional
comparison; a missing byte (`undefined`) never equals `byte`. -/
def everyIndexed : List Nat → List Nat → Bool
  | [], _ => true
  | _ :: _, [] => false
  | m :: ms, b :: bs => m == b && everyIndexed ms bs

/-- `PDF_MAGIC_NUMBERS.some(magic => magic.every(...))`. -/
def isValidPDFMagic (bytes : List Nat) : Bool :=
  PDF_MAGIC_NUMBERS.any (fun magic => everyIndexed magic bytes)

/-- Embedding of `validatePDFFile` (part_006 lines 28-62): absent file,
non-PDF MIME type, size above 10MB, size below 1KB, a failing
magic-number read (wrapped as a `fileValidation` ValidationError), and
a wrong magic number each reject; otherwise the promise resolves. -/
def validatePDFFile (file : Option JsFile) : Except ValidationError Unit :=
  match file with
  | none => .error ⟨"No file provided", none⟩
  | some f =>
    if ¬ ALLOWED_MIME_TYPES.contains f.type then
      .error ⟨"File must be a PDF document", some "fileType"⟩
    else if MAX_FILE_SIZE < f.size then
      .error ⟨"File size must be less than 10MB", some "fileSize"⟩
    else if f.size < MIN_FILE_SIZE then
      .error ⟨"File appears to be empty or corrupted", some "fileSize"⟩
    else if ¬ f.readOk then
      .error ⟨"Unable to validate file format", some "fileValidation"⟩
    else if ¬ isValidPDFMagic f.firstBytes then
      .error ⟨"File does not appear to be a valid PDF", some "fileFormat"⟩
    else .ok ()

theorem isValidPDFMagic_iff (bytes : List Nat) :
    isValidPDFMagic bytes = true ↔
      bytes.take 4 = [0x25, 0x50, 0x44, 0x46] := by
  match bytes with
  | [] => simp [isValidPDFMagic, PDF_MAGIC_NUMBERS, everyIndexed]
  | [b1] => simp [isValidPDFMagic, PDF_MAGIC_NUMBERS, everyIndexed]
  | [b1, b2] => simp [isValidPDFMagic, PDF_MAGIC_NUMBERS, everyIndexed]
  | [b1, b2, b3] => simp [isValidPDFMagic, PDF_MAGIC_NUMBERS, everyIndexed]
  | b1 :: b2 :: b3 :: b4 :: rest =>
    simp [isValidPDFMagic, PDF_MAGIC_NUMBERS, everyIndexed]
    omega

/-! ## Claim C10: validatePDFFile's exact rejection conditions -/

theorem exists_error_iff_ne_ok (v : Except ValidationError Unit) :
    (∃ e, v = .error e) ↔ ¬ (v = .ok ()) := by
  cases v with
  | error e => simp
  | ok u => cases u; simp

theorem validatePDFFile_ok_iff (f : JsFile) :
    validatePDFFile (some f) = .ok () ↔
      (f.type = "application/pdf" ∧ f.size ≤ MAX_FILE_SIZE ∧
        MIN_FILE_SIZE ≤ f.size ∧ f.readOk = true ∧
        f.firstBytes.take 4 = [0x25, 0x50, 0x44, 0x46]) := by
  have hm := isValidPDFMagic_iff f.firstBytes
  have hcont : (ALLOWED_MIME_TYPES.contains f.type = true) ↔
      f.type = "application/pdf" := by
    simp [ALLOWED_MIME_TYPES]
  simp only [validatePDFFile]
  by_cases hA : f.type = "application/pdf"
  · rw [if_neg (not_not_intro (hcont.2 hA))]
    by_cases hB : MAX_FILE_SIZE < f.size
    · rw [if_pos hB]
      refine iff_of_false (by simp) ?_
      rintro ⟨-, hB2, -, -, -⟩
      exact absurd hB (not_lt.2 hB2)
    · rw [if_neg hB]
      by_cases hC : f.size < MIN_FILE_SIZE
      · rw [if_pos hC]
        refine iff_of_false (by simp) ?_
        rintro ⟨-, -, hC2, -, -⟩
        exact absurd hC (not_lt.2 hC2)
      · rw [if_neg hC]
        by_cases hD : f.readOk = true
        · rw [if_neg (not_not_intro hD)]
          by_cases hE : isValidPDFMagic f.firstBytes = true
          · rw [if_neg (not_not_intro hE)]
            exact iff_of_true rfl ⟨hA, not_lt.1 hB, not_lt.1 hC, hD, hm.1 hE⟩
          · rw [if_pos hE]
            refine iff_of_false (by simp) ?_
            rintro ⟨-, -, -, -, hE2⟩
            exact hE (hm.2 hE2)
        · rw [if_pos hD]
          refine iff_of_false (by simp) ?_
          rintro ⟨-, -, -, hD2, -⟩
          exact hD hD2
  · rw [if_pos (fun hc => hA (hcont.1 hc))]
    refine iff_of_false (by simp) ?_
    rintro ⟨hA2, -, -, -, -⟩
    exact hA hA2

/-- Claim C10: `validatePDFFile` rejects with a `ValidationError`
exactly when the file is absent, its MIME type is not
`application/pdf`, its size exceeds 10485760 bytes, its size is below
1024 bytes, reading the leading bytes fails, or the first four bytes
are not `0x25 0x50 0x44 0x46` (`%PDF`); for every file meeting all the
conditions it resolves successfully (the model is a pure function of
the file, which is left unmodified). -/
theorem C10_validatePDFFile (file : Option JsFile) :
    ((∃ err : ValidationError, validatePDFFile file = .error err) ↔
      (file = none ∨ ∃ f : JsFile, file = some f ∧
        (f.type ≠ "application/pdf" ∨ MAX_FILE_SIZE < f.size ∨
          f.size < MIN_FILE_SIZE ∨ f.readOk = false ∨
          f.firstBytes.take 4 ≠ [0x25, 0x50, 0x44, 0x46]))) ∧
    (∀ f : JsFile, file = some f → f.type = "application/pdf" →
      f.size ≤ MAX_FILE_SIZE → MIN_FILE_SIZE ≤ f.size → f.readOk = true →
      f.firstBytes.take 4 = [0x25, 0x50, 0x44, 0x46] →
      validatePDFFile file = .ok ()) := by
  constructor
  · cases file with
    | none => simp [validatePDFFile]
    | some f =>
      rw [exists_error_iff_ne_ok, validatePDFFile_ok_iff]
      simp only [not_and_or, not_le, Bool.not_eq_true]
      constructor
      · intro h
        exact Or.inr ⟨f, rfl, h⟩
      · rintro (h | ⟨f2, hf2, h⟩)
        · exact absurd h (by simp)
        · cases Option.some.inj hf2
          exact h
  · intro f hf h1 h2 h3 h4 h5
    subst hf
    exact (validatePDFFile_ok_iff f).2 ⟨h1, h2, h3, h4, h5⟩

/-- Claim C10 witness: a 2048-byte `application/pdf` file whose first
four bytes read `%PDF` validates successfully. -/
theorem C10_validatePDFFile_witness :
    validatePDFFile
        (some ⟨"application/pdf", 2048, [0x25, 0x50, 0x44, 0x46], true⟩) =
      .ok () :=
  (C10_validatePDFFile
      (some ⟨"application/pdf", 2048, [0x25, 0x50, 0x44, 0x46], true⟩)).2
    ⟨"application/pdf", 2048, [0x25, 0x50, 0x44, 0x46], true⟩
    rfl rfl (by decide) (by decide) rfl (by decide)

/-! ## APICache.generateKey and safeBase64Encode (apiCache.js lines 10-65)

`generateKey(url, options)` builds
`{ url, method, body: body ? JSON.stringify(body) : null,
   headers: headers ? JSON.stringify(headers) : null }`, serialises it
with `JSON.stringify`, and encodes the result with `safeBase64Encode`.
In this codebase `body` is a string (the already-serialised fetch body)
and `headers` a plain object of string values, serialised in insertion
order, so the inner `JSON.stringify` calls are the standard JSON string
and flat-object serialisations modelled below. An empty-string body is
falsy and serialises as `null`.

`safeBase64Encode` computes
`btoa(encodeURIComponent(str).replace(/%([0-9A-F]{2})/g, hexToChar))`:
`encodeURIComponent` percent-encodes every non-unreserved character as
its UTF-8 bytes in uppercase hex, the `replace` turns each `%XX` back
into the character with code `XX`, and unreserved ASCII characters are
their own UTF-8 byte — so the composite hands `btoa` the UTF-8 bytes of
the input, one character per byte, and the result is the standard
base64 of the UTF-8 encoding. The `catch` fallback (a 32-bit hash in
base 36) is unreachable here: `btoa` only throws on char codes above
255, which the transform never produces, and `encodeURIComponent` only
throws on lone surrogates, which well-formed strings lack. -/

/-- Lowercase hex digit, as `JSON.stringify` emits in `\u00XX` escapes. -/
def hexDigit (n : Nat) : Char :=
  if n < 10 then Char.ofNat ('0'.toNat + n) else Char.ofNat ('a'.toNat + n - 10)

/-- One character of JSON string escaping, per `JSON.stringify`. -/
def jsonEscapeChar (c : Char) : List Char :=
  if c = '"' then ['\\', '"']
  else if c = '\\' then ['\\', '\\']
  else if c = '\n' then ['\\', 'n']
  else if c = '\r' then ['\\', 'r']
  else if c = '\t' then ['\\', 't']
  else if c = '\x08' then ['\\', 'b']
  else if c = '\x0c' then ['\\', 'f']
  else if c.toNat < 0x20 then
    ['\\', 'u', '0', '0', hexDigit (c.toNat / 16), hexDigit (c.toNat % 16)]
  else [c]

def jsonEscape : List Char → List Char
  | [] => []
  | c :: rest => jsonEscapeChar c ++ jsonEscape rest

/-- `JSON.stringify` of a string value: quote and escape. -/
def jsonQuoteL (s : List Char) : List Char :=
  '"' :: jsonEscape s ++ ['"']

/-- The comma-separated members of a flat string-valued JSON object. -/
def jsonMembers : List (String × String) → List Char
  | [] => []
  | [(k, v)] => jsonQuoteL k.data ++ ':' :: jsonQuoteL v.data
  | (k, v) :: rest =>
    jsonQuoteL k.data ++ ':' :: jsonQuoteL v.data ++ ',' :: jsonMembers rest

/-- `JSON.stringify` of a flat string-valued object, fields in insertion
order. -/
def jsonStringifyStrObj (hs : List (String × String)) : List Char :=
  '{' :: jsonMembers hs ++ ['}']

/-- The serialised `body` field of `keyData`:
`body ? JSON.stringify(body) : null`, then escaped again as a string
value inside `keyData` (an empty string is falsy in JavaScript). -/
def bodyFieldChars (body : Option String) : List Char :=
  match body with
  | some b => if b = "" then "null".data else jsonQuoteL (jsonQuoteL b.data)
  | none => "null".data

/-- The serialised `headers` field of `keyData`:
`headers ? JSON.stringify(headers) : null`, escaped again as a string
value (an object, even empty, is truthy). -/
def headersFieldChars (headers : Option (List (String × String))) :
    List Char :=
  match headers with
  | some hs => jsonQuoteL (jsonStringifyStrObj hs)
  | none => "null".data

/-- `JSON.stringify(keyData)` for
`keyData = { url, method, body: ..., headers: ... }`, fields in
insertion order. -/
def keyDataChars (url method : String) (body : Option String)
    (headers : Option (List (String × String))) : List Char :=
  '{' :: jsonQuoteL "url".data ++ ':' :: jsonQuoteL url.data
    ++ ',' :: jsonQuoteL "method".data ++ ':' :: jsonQuoteL method.data
    ++ ',' :: jsonQuoteL "body".data ++ ':' :: bodyFieldChars body
    ++ ',' :: jsonQuoteL "headers".data ++ ':' :: headersFieldChars headers
    ++ ['}']

/-- UTF-8 encoding of one character. -/
def utf8EncodeChar (c : Char) : List Nat :=
  let n := c.toNat
  if n < 0x80 then [n]
  else if n < 0x800 then [0xC0 + n / 0x40, 0x80 + n % 0x40]
  else if n < 0x10000 then
    [0xE0 + n / 0x1000, 0x80 + (n / 0x40) % 0x40, 0x80 + n % 0x40]
  else
    [0xF0 + n / 0x40000, 0x80 + (n / 0x1000) % 0x40,
      0x80 + (n / 0x40) % 0x40, 0x80 + n % 0x40]

def utf8Encode : List Char → List Nat
  | [] => []
  | c :: rest => utf8EncodeChar c ++ utf8Encode rest

def base64Alphabet : List Char :=
  "ABCDEFGHIJKLMNOPQRSTUVWXYZabcdefghijklmnopqrstuvwxyz0123456789+/".data

def b64Char (n : Nat) : Char := base64Alphabet.getD n 'A'

/-- `btoa`: standard base64 with `=` padding over a byte sequence. -/
def base64Encode : List Nat → List Char
  | [] => []
  | [b1] => [b64Char (b1 / 4), b64Char (b1 % 4 * 16), '=', '=']
  | [b1, b2] =>
    [b64Char (b1 / 4), b64Char (b1 % 4 * 16 + b2 / 16),
      b64Char (b2 % 16 * 4), '=']
  | b1 :: b2 :: b3 :: rest =>
    b64Char (b1 / 4) :: b64Char (b1 % 4 * 16 + b2 / 16)
      :: b64Char (b2 % 16 * 4 + b3 / 64) :: b64Char (b3 % 64)
      :: base64Encode rest

/-- Embedding of `safeBase64Encode` (apiCache.js lines 10-26): base64 of
the UTF-8 bytes (see the section comment for why this is the composite
of `encodeURIComponent`, the percent-decode `replace`, and `btoa`, and
why the hash fallback is dead). -/
def safeBase64Encode (s : List Char) : String :=
  String.mk (base64Encode (utf8Encode s))

/-- Embedding of `APICache.generateKey` (apiCache.js lines 56-65). -/
def generateKey (url method : String) (body : Option String)
    (headers : Option (List (String × String))) : String :=
  safeBase64Encode (keyDataChars url method body headers)

theorem base64Encode_length : ∀ bs : List Nat,
    (base64Encode bs).length = 4 * ((bs.length + 2) / 3)
  | [] => by simp [base64Encode]
  | [b1] => by simp [base64Encode]
  | [b1, b2] => by simp [base64Encode]
  | b1 :: b2 :: b3 :: rest => by
    have ih := base64Encode_length rest
    simp only [base64Encode, List.length_cons, ih]
    omega

theorem utf8EncodeChar_length_pos (c : Char) :
    1 ≤ (utf8EncodeChar c).length := by
  unfold utf8EncodeChar
  simp only []
  split_ifs <;> simp

theorem utf8Encode_length_ge : ∀ s : List Char,
    s.length ≤ (utf8Encode s).length
  | [] => by simp [utf8Encode]
  | c :: rest => by
    have ih := utf8Encode_length_ge rest
    have hc := utf8EncodeChar_length_pos c
    simp only [utf8Encode, List.length_append, List.length_cons]
    omega

theorem jsonEscapeChar_length_pos (c : Char) :
    1 ≤ (jsonEscapeChar c).length := by
  unfold jsonEscapeChar
  split_ifs <;> simp

theorem jsonEscape_length_ge : ∀ s : List Char,
    s.length ≤ (jsonEscape s).length
  | [] => by simp [jsonEscape]
  | c :: rest => by
    have ih := jsonEscape_length_ge rest
    have hc := jsonEscapeChar_length_pos c
    simp only [jsonEscape, List.length_append, List.length_cons]
    omega

theorem jsonQuoteL_length_ge (s : List Char) :
    s.length ≤ (jsonQuoteL s).length := by
  have := jsonEscape_length_ge s
  simp only [jsonQuoteL, List.length_cons, List.length_append]
  omega

/-! ## Claim C7: the request fingerprint -/

/-- Claim C7 counterexample: the fingerprint is *not* order-independent
in the headers. The two header objects below carry the same
(key, value) pairs in different insertion orders — a permutation, hence
semantically equal requests — yet `generateKey` produces different
fingerprints, because `JSON.stringify` serialises object fields in
insertion order and no normalisation is applied. -/
theorem C7_counterexample :
    [("a", "1"), ("b", "2")].Perm [("b", "2"), ("a", "1")] ∧
      generateKey "u" "GET" none (some [("a", "1"), ("b", "2")]) ≠
        generateKey "u" "GET" none (some [("b", "2"), ("a", "1")]) := by
  constructor
  · decide
  · decide

/-- Claim C7 (amended): the fingerprint is a deterministic function of
the exact (url, method, body string, header sequence) — it is
`base64(utf8(JSON.stringify(keyData)))` — but it is order-dependent in
the headers (reordering them changes the key, as the counterexample
shows), and its encoding is not bounded: the key's length is exactly
`4 * ceil(utf8Length(keyData)/3)`, which grows at least linearly with
the body's size rather than being independent of it. -/
theorem C7_fingerprint (n : Nat) :
    (∀ (url method : String) (body : Option String)
        (headers : Option (List (String × String))),
      (generateKey url method body headers).length =
        4 * (((utf8Encode (keyDataChars url method body headers)).length
          + 2) / 3)) ∧
      (generateKey "u" "GET" none (some [("a", "1"), ("b", "2")]) ≠
        generateKey "u" "GET" none (some [("b", "2"), ("a", "1")])) ∧
      n ≤ (generateKey "u" "POST"
            (some (String.mk (List.replicate n 'a'))) none).length := by
  have hlen : ∀ (url method : String) (body : Option String)
      (headers : Option (List (String × String))),
      (generateKey url method body headers).length =
        4 * (((utf8Encode (keyDataChars url method body headers)).length
          + 2) / 3) := by
    intro url method body headers
    show (base64Encode (utf8Encode (keyDataChars url method body
      headers))).length = _
    rw [base64Encode_length]
  refine ⟨hlen, by decide, ?_⟩
  rcases Nat.eq_zero_or_pos n with hn | hn
  · subst hn
    exact Nat.zero_le _
  · have hb : String.mk (List.replicate n 'a') ≠ "" := by
      intro h
      have hd : (String.mk (List.replicate n 'a')).data = ("" : String).data := by
        rw [h]
      simp only [String.data] at hd
      rw [List.replicate_eq_nil_iff] at hd
      omega
    have h1 : n ≤ (bodyFieldChars
        (some (String.mk (List.replicate n 'a')))).length := by
      have ha := jsonQuoteL_length_ge (List.replicate n 'a')
      have hb2 := jsonQuoteL_length_ge (jsonQuoteL (List.replicate n 'a'))
      simp only [bodyFieldChars, hb, if_neg, if_false]
      simp only [String.data] at ha hb2 ⊢
      have hr : (List.replicate n 'a').length = n := List.length_replicate n 'a'
      omega
    have h2 : (bodyFieldChars
          (some (String.mk (List.replicate n 'a')))).length ≤
        (keyDataChars "u" "POST"
          (some (String.mk (List.replicate n 'a'))) none).length := by
      simp only [keyDataChars, List.length_cons, List.length_append]
      omega
    have h3 := utf8Encode_length_ge
      (keyDataChars "u" "POST" (some (String.mk (List.replicate n 'a'))) none)
    have h4 := hlen "u" "POST" (some (String.mk (List.replicate n 'a'))) none
    omega

/-- Claim C7 amended-theorem witness: with a 5-character body the
fingerprint is at least 5 characters long. -/
theorem C7_fingerprint_witness :
    5 ≤ (generateKey "u" "POST"
          (some (String.mk (List.replicate 5 'a'))) none).length :=
  (C7_fingerprint 5).2.2

/-! ## Document type detection (documentSummarizerService.js lines 98-130)

Each document type is scored by the number of matches of a global,
case-insensitive alternation of literal keywords against the lowercased
text. A JavaScript global regex match scan finds, at each position, the
first alternative that matches there, counts it, and resumes after the
matched substring; `regexCountAux` reproduces that. The fold keeps the
first type with the strictly highest score, starting from
`General Document` with score 0. Lowercasing is modelled with the ASCII
`Char.toLower`, which agrees with `String.prototype.toLowerCase` on the
ASCII keywords involved. -/

/-- Does the literal `pat` occur at the head of `s`? -/
def litMatches : List Char → List Char → Bool
  | [], _ => true
  | _ :: _, [] => false
  | p :: ps, c :: cs => p == c && litMatches ps cs

/-- The first alternative of the alternation matching at the head of
`s`, returned as its length (JavaScript alternation is ordered). -/
def firstAltLen (alts : List (List Char)) (s : List Char) : Option Nat :=
  match alts with
  | [] => none
  | a :: rest => if litMatches a s then some a.length else firstAltLen rest s

/-- Count of non-overlapping matches of the alternation, scanning left
to right and resuming after each match, as a `/g` regex `match` does. -/
def regexCountAux (alts : List (List Char)) : List Char → Nat
  | [] => 0
  | c :: rest =>
    match firstAltLen alts (c :: rest) with
    | some len => 1 + regexCountAux alts (List.drop (len - 1) rest)
    | none => regexCountAux alts rest
termination_by s => s.length
decreasing_by
  · simp only [List.length_cons, List.length_drop]
    omega
  · simp only [List.length_cons]
    omega

def regexCount (alts : List String) (s : List Char) : Nat :=
  regexCountAux (alts.map String.data) s

/-- The `documentTypes` table (lines 101-112), keyword alternations in
source order. -/
def documentTypes : List (String × List String) :=
  [("Academic Paper",
    ["abstract", "introduction", "methodology", "conclusion",
      "references", "bibliography"]),
   ("Business Report",
    ["executive summary", "quarterly", "annual", "revenue", "profit",
      "loss", "financial"]),
   ("Legal Document",
    ["whereas", "hereby", "agreement", "contract", "terms",
      "conditions", "legal"]),
   ("Technical Manual",
    ["installation", "configuration", "troubleshooting",
      "specifications", "manual"]),
   ("Research Document",
    ["hypothesis", "experiment", "data", "analysis", "findings",
      "research"]),
   ("Policy Document",
    ["policy", "procedure", "guidelines", "standards", "compliance"]),
   ("Marketing Material",
    ["product", "service", "benefits", "features", "pricing",
      "marketing"]),
   ("Medical Document",
    ["patient", "diagnosis", "treatment", "medical", "clinical",
      "health"]),
   ("Financial Document",
    ["financial", "budget", "investment", "accounting", "audit",
      "tax"]),
   ("Educational Material",
    ["course", "lesson", "curriculum", "learning", "education",
      "training"])]

structure DocumentTypeResult where
  type : String
  confidence : ℚ
  indicators : Nat
deriving Repr

/-- Embedding of `detectDocumentType` (lines 98-130). -/
def detectDocumentType (text : String) : DocumentTypeResult :=
  let lowerText := text.data.map Char.toLower
  let best := documentTypes.foldl
    (fun acc tp =>
      let mcount := regexCount tp.2 lowerText
      if acc.2 < mcount then (tp.1, mcount) else acc)
    ("General Document", 0)
  { type := best.1, confidence := min ((best.2 : ℚ) / 5) 1,
    indicators := best.2 }

/-! ## Summarizer tiers and the offline/demo summary
(documentSummarizerService.js lines 18-40 and 282-323) -/

structure SummaryConfig where
  name : String
  description : String
  maxTokens : Nat
  temperature : ℚ
  icon : String
deriving DecidableEq, Repr

/-- Generic association lookup on string keys (JavaScript property
access on a literal-keyed object). -/
def lookupStr (l : List (String × β)) (k : String) : Option β :=
  match l with
  | [] => none
  | p :: rest => if p.1 = k then some p.2 else lookupStr rest k

/-- The `SUMMARY_LENGTHS` tier table (lines 18-40). -/
def SUMMARY_LENGTHS : List (String × SummaryConfig) :=
  [("SHORT",
    { name := "Short", description := "Brief overview (2-3 paragraphs)",
      maxTokens := 300, temperature := 3 / 10, icon := "FiEdit3" }),
   ("MEDIUM",
    { name := "Medium", description := "Detailed summary (4-6 paragraphs)",
      maxTokens := 800, temperature := 2 / 10, icon := "FiFileText" }),
   ("LONG",
    { name := "Long", description := "Comprehensive analysis (8+ paragraphs)",
      maxTokens := 1500, temperature := 1 / 10, icon := "FiBook" })]

/-- `String.prototype.toLowerCase` over ASCII. -/
def jsToLower (s : String) : String := String.mk (s.data.map Char.toLower)

/-- `\s+`-split piece count: one more than the number of maximal
whitespace runs (JavaScript `split(/\s+/).length`, which keeps empty
leading/trailing pieces). `prevWs` remembers whether the previous
character was whitespace. -/
def wsRunsAux (prevWs : Bool) : List Char → Nat
  | [] => 0
  | c :: rest =>
    let w := c = ' ' || c = '\t' || c = '\n' || c = '\r' ||
      c = '\x0b' || c = '\x0c'
    (if w && !prevWs then 1 else 0) + wsRunsAux w rest

def jsSplitWsCount (s : String) : Nat := 1 + wsRunsAux false s.data

/-- The `mockSummaries` template for a tier, instantiated with the
lowercased detected document type; `none` for an unknown tier
(`mockSummaries[summaryLength]` is `undefined`). -/
def mockSummaryFor (tier : String) (dt : String) : Option String :=
  if tier = "SHORT" then some
    ("This document appears to be a " ++ dt ++
      " containing key information and analysis. The main focus centers on presenting important concepts and findings in a structured format. Overall, the document provides valuable insights and serves as a comprehensive resource for its intended audience.")
  else if tier = "MEDIUM" then some
    ("This document is classified as a " ++ dt ++
      " that presents detailed information across multiple sections. The content is well-organized and covers various aspects of the subject matter with supporting details and analysis.\n\nThe document begins with foundational concepts and progresses through more complex topics, providing readers with a logical flow of information. Key findings and recommendations are highlighted throughout, making it easy to identify the most important points.\n\nThe structure includes multiple sections that build upon each other, creating a comprehensive overview of the topic. Supporting data and examples are provided to reinforce the main arguments and conclusions presented in the document.")
  else if tier = "LONG" then some
    ("This comprehensive document has been identified as a " ++ dt ++
      " that provides extensive coverage of its subject matter through multiple detailed sections and thorough analysis.\n\nThe document opens with introductory material that establishes the context and scope of the content. This foundation allows readers to understand the purpose and objectives before diving into more complex topics and detailed analysis.\n\nThroughout the middle sections, the document presents core concepts with supporting evidence, data, and examples. The information is structured logically, with each section building upon previous content to create a cohesive narrative that guides readers through the material systematically.\n\nKey findings and insights are distributed throughout the document, with particular emphasis on practical applications and real-world implications. The analysis demonstrates depth and consideration of multiple perspectives on the topics discussed.\n\nThe document includes detailed explanations of methodologies, processes, or frameworks relevant to the subject matter. These technical aspects are presented in an accessible manner while maintaining the necessary level of detail for professional use.\n\nSupporting materials such as data tables, charts, or reference materials enhance the main content and provide additional context for readers seeking deeper understanding of specific points.\n\nThe concluding sections synthesize the information presented earlier, drawing connections between different concepts and highlighting the most significant takeaways. Recommendations for future action or consideration are provided where appropriate.\n\nOverall, this document serves as a comprehensive resource that balances thoroughness with accessibility, making it valuable for both general readers and subject matter experts seeking detailed information on the topic.")
  else none

/-- The record a summarization call resolves with. The live path also
carries a token-usage field and no `isDemo` property (modelled as
`isDemo := false`); the demo path sets `isDemo := true`. -/
structure SummaryResult where
  summary : String
  summaryLength : String
  documentType : String
  confidence : ℚ
  wordCount : Nat
  model : String
  processingTime : Int
  config : SummaryConfig
  isDemo : Bool
deriving Repr

/-- Embedding of `generateMockSummary` (lines 282-323). For one of the
three configured tiers it builds the demo result; for any other tier
`mockSummaries[summaryLength]` is `undefined` and the
`summary.split(/\s+/)` call throws a `TypeError`. -/
def generateMockSummary (text : String) (summaryLength : String)
    (now : Int) : Except JsError SummaryResult :=
  let documentType := detectDocumentType text
  match lookupStr SUMMARY_LENGTHS summaryLength,
      mockSummaryFor summaryLength (jsToLower documentType.type) with
  | some config, some s =>
    .ok { summary := s, summaryLength := summaryLength,
          documentType := documentType.type,
          confidence := documentType.confidence,
          wordCount := jsSplitWsCount s, model := "demo-mode",
          processingTime := now, config := config, isDemo := true }
  | _, _ =>
    .error { name := "TypeError", status := none,
             message := "Cannot read properties of undefined (reading 'split')" }

/-- The `withErrorHandling` wrapper (errorHandling.js lines 100-131) on
the non-timeout path: a success passes through, an error is re-raised
as `enhanceError`, whose message is prefixed with the context. -/
def withErrorHandlingWrap (context : String) (r : Except JsError α) :
    Except JsError α :=
  match r with
  | .ok v => .ok v
  | .error e =>
    .error { e with message := "[" ++ context ++ "] " ++ e.message }

/-- Embedding of `generateDocumentSummary`
(documentSummarizerService.js lines 166-242). `apiKey` models
`import.meta.env.VITE_OPENAI_API_KEY` (absent or empty is falsy);
`live` is the outcome of the credentialed network path (rate limiter,
deduplicated `withRetry` fetch, response parsing), which the claims
below never enter. The missing-credential check precedes the tier
validation, so with no credential the demo generator handles every
tier. -/
def generateDocumentSummary (apiKey : Option String) (text : String)
    (summaryLength : String) (now : Int)
    (live : Except JsError SummaryResult) : Except JsError SummaryResult :=
  withErrorHandlingWrap "Document Summary Generation"
    (match apiKey with
     | none => generateMockSummary text summaryLength now
     | some k =>
       if k = "" then generateMockSummary text summaryLength now
       else if (lookupStr SUMMARY_LENGTHS summaryLength).isNone then
         .error { name := "AIServiceError", status := none,
                  message := "Invalid summary length: " ++ summaryLength }
       else live)

/-! ## Claim C6: no credential means a demo summary, not a failure -/

theorem append3_ne_empty (a b c : String) (ha : a.length ≠ 0) :
    a ++ b ++ c ≠ "" := by
  intro h
  have h2 := congrArg String.length h
  rw [String.length_append, String.length_append] at h2
  simp at h2
  omega

/-- Claim C6: for every input text and every configured tier, when no
API credential is configured the summarization operation does not fail:
it resolves with the deterministic offline/demo result, which carries
`isDemo := true`, a non-empty summary string, the demo model marker,
and the requested tier — the same result shape as the live path — so a
job started without a credential can reach DONE. -/
theorem C6_demo_summary (text : String) (now : Int)
    (live : Except JsError SummaryResult) (tier : String)
    (htier : tier = "SHORT" ∨ tier = "MEDIUM" ∨ tier = "LONG") :
    ∃ r : SummaryResult,
      generateDocumentSummary none text tier now live = .ok r ∧
      r.isDemo = true ∧ r.summary ≠ "" ∧ r.model = "demo-mode" ∧
      r.summaryLength = tier := by
  rcases htier with h | h | h <;> subst h
  · refine ⟨_, rfl, rfl, ?_, rfl, rfl⟩
    exact append3_ne_empty _ _ _ (by decide)
  · refine ⟨_, rfl, rfl, ?_, rfl, rfl⟩
    exact append3_ne_empty _ _ _ (by decide)
  · refine ⟨_, rfl, rfl, ?_, rfl, rfl⟩
    exact append3_ne_empty _ _ _ (by decide)

/-- Claim C6 witness: a MEDIUM-tier job with no credential resolves
with a non-empty demo summary. -/
theorem C6_demo_summary_witness :
    ∃ r : SummaryResult,
      generateDocumentSummary none "Policy summary test document." "MEDIUM" 0
          (.error { name := "Error", status := none, message := "unused" }) =
        .ok r ∧
      r.isDemo = true ∧ r.summary ≠ "" ∧ r.model = "demo-mode" ∧
      r.summaryLength = "MEDIUM" :=
  C6_demo_summary "Policy summary test document." 0
    (.error { name := "Error", status := none, message := "unused" })
    "MEDIUM" (Or.inr (Or.inl rfl))

/-! ## extractTextFromPDF and the processFile pipeline
(part_006 lines 71-188, usePDFProcessor.js lines 54-154)

Cancellation is cooperative: the abort signal is consulted before the
page loop, at the top of each page iteration, and again between the
pipeline stages and in the catch handler. The model indexes the signal
by completed pages: `abortedAfter (some k) done` is the value of
`signal.aborted` once `done` pages have completed when `cancel()` is
requested right after page `k` finishes. Stage outcomes that live
outside these two functions — the sanitizer and the summarization
network path — are passed in as `sanitize` and `live`; the per-page
`getPage` reads are taken as succeeding (a failing page is caught and
skipped by the source and plays no role in the claims below).

Each side effect the pipeline can issue is logged: validation, each
extracted page (with its `onProgress` callback), the summarization call
(the only stage that touches the cache, circuit breaker, and rate
limiter), and `logError`. -/

inductive PipeEffect where
  | validateCall
  | extractPage (i : Nat)
  | summarizeCall
  | logErrorCall
deriving DecidableEq, Repr

/-- `signal.aborted` once `done` pages have completed, when cancellation
is requested after page `k` completes (`none`: never requested). -/
def abortedAfter (k : Option Nat) (done : Nat) : Bool :=
  match k with
  | some k0 => k0 ≤ done
  | none => false

def MAX_PAGES : Nat := 500

def MAX_TEXT_LENGTH : Nat := 1000000

/-- JavaScript whitespace (the ASCII part of `\s`). -/
def isJsWs (c : Char) : Bool :=
  c = ' ' || c = '\t' || c = '\n' || c = '\r' || c = '\x0b' || c = '\x0c'

/-- `String.prototype.trim` over ASCII whitespace, written so that it
evaluates by structural recursion. -/
def jsTrim (s : String) : String :=
  String.mk (((s.data.dropWhile isJsWs).reverse.dropWhile isJsWs).reverse)

/-- The page loop of `extractTextFromPDF` (lines 126-159): check the
signal, append the page's trimmed text (when non-empty) followed by a
blank line, and stop early once the accumulated text exceeds
`MAX_TEXT_LENGTH`. Returns the accumulated text (or the cancellation
error) and the per-page effects. -/
def extractLoop (k : Option Nat) : Nat → String → List String →
    Except JsError String × List PipeEffect
  | _, fullText, [] => (.ok fullText, [])
  | i, fullText, p :: rest =>
    if abortedAfter k (i - 1) then
      (.error { name := "Error", status := none,
                message := "Operation cancelled" }, [])
    else
      let pageText := jsTrim p
      let fullText2 :=
        if pageText ≠ "" then fullText ++ pageText ++ "\n\n" else fullText
      if MAX_TEXT_LENGTH < fullText2.length then
        (.ok fullText2, [.extractPage i])
      else
        let r := extractLoop k (i + 1) fullText2 rest
        (r.1, .extractPage i :: r.2)

/-- Embedding of `extractTextFromPDF` (lines 71-188): validate, check
the signal, enforce the page limit, run the page loop, and reject
empty extractions; a cancellation thrown inside is re-thrown as
`PDF processing was cancelled`. -/
def extractTextFromPDF (file : Option JsFile) (pages : List String)
    (k : Option Nat) : Except JsError String × List PipeEffect :=
  match validatePDFFile file with
  | .error e =>
    (.error { name := "ValidationError", status := none,
              message := e.message }, [])
  | .ok _ =>
    if abortedAfter k 0 then
      (.error { name := "Error", status := none,
                message := "PDF processing was cancelled" }, [])
    else if MAX_PAGES < pages.length then
      (.error { name := "PDFProcessingError", status := none,
                message := "Document has too many pages" }, [])
    else
      let r := extractLoop k 1 "" pages
      match r.1 with
      | .error e =>
        (.error (if e.message = "Operation cancelled" then
            { name := "Error", status := none,
              message := "PDF processing was cancelled" }
          else e), r.2)
      | .ok fullText =>
        let finalText := jsTrim fullText
        if finalText = "" then
          (.error { name := "PDFProcessingError", status := none,
                    message := "No readable text found in the PDF document" },
            r.2)
        else (.ok finalText, r.2)

/-- The state slice of the hook that the claims are about. -/
structure HookState where
  error : Option String
  isProcessing : Bool
  progress : Nat
  extractedText : Option String
  summaryResult : Option SummaryResult
deriving Repr

/-- Does `s` contain `pat` as a substring (`String.includes`)? -/
def containsSub (pat : List Char) : List Char → Bool
  | [] => pat.isEmpty
  | c :: rest => litMatches pat (c :: rest) || containsSub pat rest

/-- Embedding of `formatErrorForUser` (errorHandling.js lines 196-227),
discriminating on the error class name and status. -/
def formatErrorForUser (e : JsError) : String :=
  if e.name = "PDFProcessingError" then
    "There was an issue processing your PDF file. Please ensure it's a valid PDF and try again."
  else if e.name = "AIServiceError" then
    if e.status = some 401 then
      "API authentication failed. Please check your API key configuration."
    else if e.status = some 429 then
      "API rate limit exceeded. Please wait a moment and try again."
    else if e.statusAtLeast 500 then
      "The AI service is temporarily unavailable. Please try again later."
    else "There was an issue with the AI analysis. Please try again."
  else if e.name = "ValidationError" then "Validation error: " ++ e.message
  else if containsSub "timeout".data e.message.data then
    "The operation took too long to complete. Please try with a smaller file or try again later."
  else if containsSub "network".data e.message.data ||
      containsSub "fetch".data e.message.data then
    "Network error. Please check your internet connection and try again."
  else
    "An unexpected error occurred. Please try again or contact support if the problem persists."

/-- The extraction-progress value `10 + Math.round((i / total) * 60)`
last written by the `onProgress` callback. -/
def extractProgress (i total : Nat) : Nat :=
  10 + (120 * i + total) / (2 * total)

/-- Embedding of `processFile` (usePDFProcessor.js lines 54-154),
returning the final hook state and the chronological effect list. The
catch handler silently resets the state (no error recorded, nothing
logged) when `signal.aborted` holds, and otherwise logs and stores the
user-facing message. The source re-checks `signal.aborted` between the
post-extraction stages (lines 94/111/118); no pages complete between
those checkpoints, so the signal cannot change there and one check
decides them all. When it holds at such a checkpoint the source
returns early, leaving `isProcessing` true (the lines 94-118 `return`
statements reset nothing). -/
def processFile (file : Option JsFile) (pages : List String)
    (k : Option Nat) (apiKey : Option String) (tier : String) (now : Int)
    (live : Except JsError SummaryResult) (sanitize : String → String) :
    HookState × List PipeEffect :=
  match file with
  | none =>
    ({ error := some "No file provided", isProcessing := false,
       progress := 0, extractedText := none, summaryResult := none }, [])
  | some f =>
    match validatePDFFile (some f) with
    | .error e =>
      if abortedAfter k 0 then
        ({ error := none, isProcessing := false, progress := 0,
           extractedText := none, summaryResult := none },
          [.validateCall])
      else
        ({ error := some (formatErrorForUser
              { name := "ValidationError", status := none,
                message := e.message }),
           isProcessing := false, progress := 0, extractedText := none,
           summaryResult := none },
          [.validateCall, .logErrorCall])
    | .ok _ =>
      if abortedAfter k 0 then
        ({ error := none, isProcessing := true, progress := 5,
           extractedText := none, summaryResult := none },
          [.validateCall])
      else
        let ext := extractTextFromPDF (some f) pages k
        let done := ext.2.length
        match ext.1 with
        | .error e =>
          if abortedAfter k done then
            ({ error := none, isProcessing := false, progress := 0,
               extractedText := none, summaryResult := none },
              .validateCall :: ext.2)
          else
            ({ error := some (formatErrorForUser e),
               isProcessing := false, progress := 0,
               extractedText := none, summaryResult := none },
              .validateCall :: ext.2 ++ [.logErrorCall])
        | .ok textE =>
          if abortedAfter k done then
            ({ error := none, isProcessing := true,
               progress := extractProgress done pages.length,
               extractedText := none, summaryResult := none },
              .validateCall :: ext.2)
          else
            let sanitized := sanitize textE
            if jsTrim sanitized = "" then
              ({ error := some (formatErrorForUser
                    { name := "Error", status := none,
                      message := "No readable text found in the PDF document" }),
                 isProcessing := false, progress := 0,
                 extractedText := none, summaryResult := none },
                .validateCall :: ext.2 ++ [.logErrorCall])
            else
              match generateDocumentSummary apiKey sanitized tier now live with
              | .error e =>
                ({ error := some (formatErrorForUser e),
                   isProcessing := false, progress := 0,
                   extractedText := some sanitized, summaryResult := none },
                  .validateCall :: ext.2 ++ [.summarizeCall, .logErrorCall])
              | .ok r =>
                ({ error := none, isProcessing := false, progress := 100,
                   extractedText := some sanitized,
                   summaryResult := some r },
                  .validateCall :: ext.2 ++ [.summarizeCall])

/-! ## Claim C5: cancellation mid-extraction -/

/-- An upper bound on the text the page loop accumulates: each page
contributes its trimmed length plus the two-character separator. -/
def pagesBudget : List String → Nat
  | [] => 0
  | p :: rest => (jsTrim p).length + 2 + pagesBudget rest

/-- When cancellation is requested after page `k0` and the text-length
break does not fire first, the page loop extracts pages `i..k0`, then
observes the signal at the top of iteration `k0 + 1` and throws the
cancellation error. -/
theorem extractLoop_cancel (k0 : Nat) :
    ∀ (pages : List String) (i : Nat) (fullText : String),
      1 ≤ i → i ≤ k0 + 1 → k0 + 1 - i < pages.length →
      fullText.length + pagesBudget (pages.take (k0 + 1 - i)) ≤
        MAX_TEXT_LENGTH →
      extractLoop (some k0) i fullText pages =
        (.error { name := "Error", status := none,
                  message := "Operation cancelled" },
          (List.range' i (k0 + 1 - i)).map PipeEffect.extractPage) := by
  intro pages
  induction pages with
  | nil =>
    intro i fullText h1 h2 h3 hbud
    simp at h3
  | cons p rest ih =>
    intro i fullText h1 h2 h3 hbud
    by_cases hend : i = k0 + 1
    · subst hend
      have habort : abortedAfter (some k0) k0 = true := by
        simp [abortedAfter]
      simp [extractLoop, habort]
    · have hile : i ≤ k0 := by omega
      have habort : abortedAfter (some k0) (i - 1) = false := by
        simp only [abortedAfter, decide_eq_false_iff_not]
        omega
      obtain ⟨mm, hmm⟩ : ∃ mm, k0 + 1 - i = mm + 1 := ⟨k0 - i, by omega⟩
      have htake : (p :: rest).take (k0 + 1 - i) = p :: rest.take mm := by
        rw [hmm]
        rfl
      rw [htake] at hbud
      have hbud2 : fullText.length +
          ((jsTrim p).length + 2 + pagesBudget (rest.take mm)) ≤
          MAX_TEXT_LENGTH := hbud
      have hlen2 : (if jsTrim p ≠ "" then fullText ++ jsTrim p ++ "\n\n"
          else fullText).length ≤
          fullText.length + (jsTrim p).length + 2 := by
        by_cases hp : jsTrim p = ""
        · simp [hp]
        · rw [if_pos hp]
          rw [String.length_append, String.length_append]
          have h2c : ("\n\n" : String).length = 2 := rfl
          omega
      have hnobreak : ¬ (MAX_TEXT_LENGTH <
          (if jsTrim p ≠ "" then fullText ++ jsTrim p ++ "\n\n"
            else fullText).length) := by
        omega
      have hrem : k0 + 1 - (i + 1) < rest.length := by
        simp only [List.length_cons] at h3
        omega
      have hbud3 : (if jsTrim p ≠ "" then fullText ++ jsTrim p ++ "\n\n"
          else fullText).length +
          pagesBudget (rest.take (k0 + 1 - (i + 1))) ≤ MAX_TEXT_LENGTH := by
        have : k0 + 1 - (i + 1) = mm := by omega
        rw [this]
        omega
      have hrec := ih (i + 1) _ (by omega) (by omega) hrem hbud3
      have hstep : extractLoop (some k0) i fullText (p :: rest) =
          ((extractLoop (some k0) (i + 1)
              (if jsTrim p ≠ "" then fullText ++ jsTrim p ++ "\n\n"
                else fullText) rest).1,
            .extractPage i :: (extractLoop (some k0) (i + 1)
              (if jsTrim p ≠ "" then fullText ++ jsTrim p ++ "\n\n"
                else fullText) rest).2) := by
        simp only [extractLoop, habort, Bool.false_eq_true, if_false]
        simp only [hnobreak, if_neg, if_false]
      rw [hstep, hrec]
      have hrange : List.range' i (k0 + 1 - i) =
          i :: List.range' (i + 1) mm := by
        rw [hmm]
        rfl
      rw [show k0 + 1 - (i + 1) = mm from by omega, hrange]
      rfl

/-- Claim C5: if cancellation is requested mid-extraction — after page
`kp` completes, with at least one page done and at least one page still
to go — the job ends cancelled rather than failed: the final state
records no error and no result and is no longer processing, no
summarization call is ever issued after the cancellation is observed
(so the cache, circuit breaker, and rate limiter, which the pipeline
touches only through the summarization call, are untouched by the
remaining stages), nothing is logged as an error, and the effect trace
is exactly the validation followed by the extraction of pages
`1..kp`. -/
theorem C5_cancel_mid_extraction (f : JsFile) (pages : List String)
    (kp : Nat) (apiKey : Option String) (tier : String) (now : Int)
    (live : Except JsError SummaryResult) (sanitize : String → String)
    (hval : validatePDFFile (some f) = .ok ())
    (hk1 : 1 ≤ kp) (hk2 : kp < pages.length)
    (hmax : pages.length ≤ MAX_PAGES)
    (hbudget : pagesBudget (pages.take kp) ≤ MAX_TEXT_LENGTH) :
    processFile (some f) pages (some kp) apiKey tier now live sanitize =
      ({ error := none, isProcessing := false, progress := 0,
         extractedText := none, summaryResult := none },
        .validateCall :: (List.range' 1 kp).map PipeEffect.extractPage) ∧
    PipeEffect.summarizeCall ∉
      (processFile (some f) pages (some kp) apiKey tier now live
        sanitize).2 ∧
    PipeEffect.logErrorCall ∉
      (processFile (some f) pages (some kp) apiKey tier now live
        sanitize).2 := by
  have habort0 : abortedAfter (some kp) 0 = false := by
    simp only [abortedAfter, decide_eq_false_iff_not]
    omega
  have hloop := extractLoop_cancel kp pages 1 ""
    (le_refl 1) (by omega) (by simpa using hk2) (by simpa using hbudget)
  have hmp : ¬ (MAX_PAGES < pages.length) := not_lt.2 hmax
  have hext : extractTextFromPDF (some f) pages (some kp) =
      (.error { name := "Error", status := none,
                message := "PDF processing was cancelled" },
        (List.range' 1 kp).map PipeEffect.extractPage) := by
    simp only [extractTextFromPDF, hval, habort0, Bool.false_eq_true,
      if_false, hmp, if_neg, not_false_iff]
    rw [show kp + 1 - 1 = kp from by omega] at hloop
    rw [hloop]
    rfl
  have habortk : abortedAfter (some kp) kp = true := by
    simp [abortedAfter]
  have hmain : processFile (some f) pages (some kp) apiKey tier now live
      sanitize =
      ({ error := none, isProcessing := false, progress := 0,
         extractedText := none, summaryResult := none },
        .validateCall :: (List.range' 1 kp).map PipeEffect.extractPage) := by
    simp only [processFile, hval, habort0, Bool.false_eq_true, if_false,
      hext]
    have hlen : ((List.range' 1 kp).map PipeEffect.extractPage).length =
        kp := by
      simp
    rw [hlen, habortk]
    rfl
  refine ⟨hmain, ?_, ?_⟩
  · rw [hmain]
    simp
  · rw [hmain]
    simp

/-- Claim C5 witness: a valid 3-page document cancelled after page 1
ends with no error, no summarization, and exactly pages 1..1
extracted. -/
theorem C5_cancel_mid_extraction_witness :
    processFile
        (some ⟨"application/pdf", 2048, [0x25, 0x50, 0x44, 0x46], true⟩)
        ["One", "Two", "Three"] (some 1) none "MEDIUM" 0
        (.error { name := "Error", status := none, message := "unused" })
        (fun s => s) =
      ({ error := none, isProcessing := false, progress := 0,
         extractedText := none, summaryResult := none },
        [PipeEffect.validateCall, PipeEffect.extractPage 1]) := by
  have h := C5_cancel_mid_extraction
    ⟨"application/pdf", 2048, [0x25, 0x50, 0x44, 0x46], true⟩
    ["One", "Two", "Three"] 1 none "MEDIUM" 0
    (.error { name := "Error", status := none, message := "unused" })
    (fun s => s) rfl (by decide) (by decide) (by decide) (by decide)
  exact h.1
